import Mathlib

/-!
Shallow embedding of src/magnificent7_cash_secured_puts_roi_v31.py.

The program has three computational pieces: a weekly-Friday expiration
enumerator, a cash-secured-put screener working on an option chain fetched
from a market-data provider, and a fundamentals enricher deriving a 0-3
score.  External fetches (price history, option chain, info blob) are
modelled as explicit inputs; a fetch that raises is the value none.
Calendar dates are modelled as day numbers (naturals) with day 0 a Monday,
so the Python weekday() of day d is d % 7 and Friday is weekday 4.
Floating point arithmetic on provider data is idealised as rational
arithmetic, except that division by zero follows the numpy float semantics
the code actually exercises (signed infinities and NaN, carried by NumF).
-/

/-- Python round(x, 2): round to 2 decimal places (ties idealised as the
mathematical round; the concrete inputs used below avoid ties). -/
def roundTo2 (x : ℚ) : ℚ := (round (x * 100) : ℤ) / 100

/-- Value of a numpy float computation: a finite rational, an infinity, or
NaN.  Division by zero yields a signed infinity or NaN instead of raising. -/
inductive NumF where
  | fin (q : ℚ)
  | posInf
  | negInf
  | nan
deriving DecidableEq, Repr

/-- Numpy float division a / b, with the IEEE zero-denominator cases. -/
def NumF.ofDiv (a b : ℚ) : NumF :=
  if b = 0 then
    if 0 < a then .posInf else if a < 0 then .negInf else .nan
  else .fin (a / b)

/-- Multiplication by a positive rational constant (used with 100 and 365). -/
def NumF.mulPos (x : NumF) (c : ℚ) : NumF :=
  match x with
  | .fin q => .fin (q * c)
  | .posInf => .posInf
  | .negInf => .negInf
  | .nan => .nan

/-- Division of a numpy float by a Python integer, IEEE semantics. -/
def NumF.divInt (x : NumF) (d : ℤ) : NumF :=
  match x with
  | .fin q =>
    if d = 0 then
      if 0 < q then .posInf else if q < 0 then .negInf else .nan
    else .fin (q / d)
  | .posInf => if d < 0 then .negInf else .posInf
  | .negInf => if d < 0 then .posInf else .negInf
  | .nan => .nan

/-- Python round(x, 2) on a numpy float: infinities and NaN are unchanged. -/
def NumF.round2 : NumF → NumF
  | .fin q => .fin (roundTo2 q)
  | x => x

/-- Whether a numpy float value is finite. -/
def NumF.IsFinite : NumF → Prop
  | .fin _ => True
  | _ => False

/-- Whether a numpy float value is less than or equal to zero. -/
def NumF.Nonpos : NumF → Prop
  | .fin q => q ≤ 0
  | .negInf => True
  | _ => False

/-- One row of the put option chain returned by the provider. -/
structure PutRow where
  strike : ℚ
  bid : ℚ
  ask : ℚ
  openInterest : ℤ
  impliedVolatility : ℚ
deriving DecidableEq, Repr

/-- The record get_put_option_data builds for the selected contract. -/
structure ScreenRecord where
  ticker : String
  currentPrice : ℚ
  strike : ℚ
  bid : ℚ
  ask : ℚ
  openInterest : ℤ
  premium : ℚ
  cashRequired : ℚ
  absROI : NumF
  annualizedROI : NumF
  expiration : ℕ
  iv : ℚ
deriving DecidableEq, Repr

/-- Pandas idxmax over the bid column: the first row attaining the maximal
bid (scanning left to right, a later row replaces the current best only
when its bid is strictly greater). -/
def selectBest : List PutRow → Option PutRow
  | [] => none
  | x :: xs =>
    match selectBest xs with
    | none => some x
    | some y => if x.bid < y.bid then some y else some x

/-- The quantity (bid / strike) * 100, as numpy computes it. -/
def ratioTimes100 (bid strike : ℚ) : NumF := (NumF.ofDiv bid strike).mulPos 100

/-- The dictionary built at the end of get_put_option_data. -/
def mkScreenRecord (ticker : String) (price : ℚ) (expiration : ℕ)
    (days_to_exp : ℤ) (best_put : PutRow) : ScreenRecord :=
  { ticker := ticker
    currentPrice := roundTo2 price
    strike := roundTo2 best_put.strike
    bid := roundTo2 best_put.bid
    ask := roundTo2 best_put.ask
    openInterest := best_put.openInterest
    premium := roundTo2 (best_put.bid * 100)
    cashRequired := roundTo2 (best_put.strike * 100)
    absROI := (ratioTimes100 best_put.bid best_put.strike).round2
    annualizedROI :=
      (((ratioTimes100 best_put.bid best_put.strike).mulPos 365).divInt
        days_to_exp).round2
    expiration := expiration
    iv := roundTo2 (best_put.impliedVolatility * 100) }

/-- Embedding of get_put_option_data.  priceRes is the latest close price
(none when the history lookup raises or the series is empty); chainRes is
the put chain for the target expiration (none when the fetch raises);
days_to_exp is the computed calendar difference between the expiration and
today.  Every exception path of the Python function returns None, embedded
as none. -/
def get_put_option_data (ticker : String) (priceRes : Option ℚ)
    (options : List ℕ) (target_expiration : ℕ)
    (chainRes : Option (List PutRow)) (moneyness_pct : ℚ)
    (days_to_exp : ℤ) : Option ScreenRecord :=
  match priceRes with
  | none => none
  | some price =>
    if target_expiration ∈ options then
      match chainRes with
      | none => none
      | some chain =>
        let max_strike := price * (1 - moneyness_pct / 100)
        let puts := chain.filter (fun r => r.strike ≤ max_strike)
        match selectBest puts with
        | none => none
        | some best_put =>
          some (mkScreenRecord ticker price target_expiration days_to_exp
            best_put)
    else none

/-- Embedding of get_weekly_fridays: today is a day number (day 0 a
Monday, so today % 7 is the Python weekday), n the requested count (the
Python range of a non-positive int is empty, hence Int.toNat). -/
def get_weekly_fridays (today : ℕ) (n : ℤ) : List ℕ :=
  (List.range n.toNat).map fun (i : ℕ) =>
    today + ((4 - ((today % 7 : ℕ) : ℤ) + 7 * (i : ℤ)) % 7 + 7 * (i : ℤ)).toNat

/-- The fields of the yfinance info blob the code reads.  A missing key is
none; Python truthiness makes both None and 0 falsy. -/
structure InfoBlob where
  recommendationKey : Option String
  targetMeanPrice : Option ℚ
  currentPrice : Option ℚ
  dividendYield : Option ℚ
deriving DecidableEq, Repr

/-- Provider data consumed by get_fundamentals once the fetches succeed:
the info blob, the calendar Earnings Date (already formatted, none when
the calendar has no such row), and the quarterly earnings frame as its
Earnings and Estimate columns (an empty frame is an empty Earnings list). -/
structure FundInput where
  info : InfoBlob
  earningsDate : Option String
  epsActuals : List ℚ
  epsEstimates : List ℚ
deriving DecidableEq, Repr

/-- The record get_fundamentals builds. -/
structure FundRecord where
  dividendYieldPct : ℚ
  earningsDate : String
  priceTarget : ℚ
  recommendation : String
  epsLast4 : String
  epsBeats : String
  overallScore : ℕ
deriving DecidableEq, Repr

/-- The all-default record of the except branch of get_fundamentals. -/
def defaultFund : FundRecord :=
  { dividendYieldPct := 0
    earningsDate := "N/A"
    priceTarget := 0
    recommendation := "N/A"
    epsLast4 := "N/A"
    epsBeats := "N/A"
    overallScore := 0 }

/-- Python truthiness of an optional number: None and 0 are falsy. -/
def truthyQ : Option ℚ → Bool
  | none => false
  | some q => decide (q ≠ 0)

/-- Python str.capitalize: first character upper-cased, the rest lowered. -/
def pyCapitalize (s : String) : String :=
  match s.toList with
  | [] => ""
  | c :: rest => String.mk (c.toUpper :: rest.map Char.toLower)

/-- Fixed two-decimal formatting of a rational, the shape the f-string
with format spec .2f produces (ties idealised as the mathematical round). -/
def format2 (x : ℚ) : String :=
  let n : ℤ := round (x * 100)
  let sign := if n < 0 then "-" else ""
  let m := n.natAbs
  let frac := m % 100
  sign ++ toString (m / 100) ++ "." ++
    (if frac < 10 then "0" ++ toString frac else toString frac)

/-- The second score condition of get_fundamentals: targetMeanPrice is
truthy and the comparison with currentPrice holds.  When targetMeanPrice
is truthy and currentPrice is absent the Python comparison raises
TypeError; get_fundamentals tests for that case before using this, so the
value returned for it here is never consulted. -/
def cond2 (info : InfoBlob) : Bool :=
  match info.targetMeanPrice, info.currentPrice with
  | some t, some c => decide (t ≠ 0) && decide (c < t)
  | _, _ => false

/-- The score accumulated by the three sequential if statements. -/
def scoreOf (info : InfoBlob) : ℕ :=
  (if info.recommendationKey = some "buy" then 1 else 0) +
  (if cond2 info then 1 else 0) +
  (if truthyQ info.dividendYield then 1 else 0)

/-- Embedding of get_fundamentals.  The argument is none when any of the
fetches (info, calendar, quarterly earnings) raises; the derivation itself
raises exactly when targetMeanPrice is truthy and currentPrice is absent
(the TypeError of the comparison with None).  Both exception paths land in
the except branch and return the all-default record. -/
def get_fundamentals (inp : Option FundInput) : FundRecord :=
  match inp with
  | none => defaultFund
  | some f =>
    if truthyQ f.info.targetMeanPrice && f.info.currentPrice.isNone then
      defaultFund
    else
      let eps_list := f.epsActuals.drop (f.epsActuals.length - 4)
      let beats := (f.epsActuals.zip f.epsEstimates).map
        (fun p => if p.2 ≤ p.1 then (1 : ℕ) else 0)
      { dividendYieldPct :=
          match f.info.dividendYield with
          | some d => if d ≠ 0 then roundTo2 (d * 100) else 0
          | none => 0
        earningsDate := f.earningsDate.getD "N/A"
        priceTarget := roundTo2 (f.info.targetMeanPrice.getD 0)
        recommendation := pyCapitalize (f.info.recommendationKey.getD "N/A")
        epsLast4 :=
          if eps_list.isEmpty then "N/A"
          else String.intercalate ", " (eps_list.map format2)
        epsBeats :=
          if beats.isEmpty then "N/A"
          else toString beats.sum ++ "/" ++ toString beats.length
        overallScore := scoreOf f.info }

/-- Provider data for one ticker, as the orchestration consumes it: the
close price, the available expirations, the put chain per expiration, and
the fundamentals input (none values model raising fetches). -/
structure TickerData where
  priceRes : Option ℚ
  options : List ℕ
  chain : ℕ → Option (List PutRow)
  fund : Option FundInput

/-- A row of the final DataFrame: the screener record together with the
fundamentals fields merged into it by dict update (the key sets are
disjoint, so the pair loses nothing). -/
abbrev Merged := ScreenRecord × FundRecord

/-- One loop body of the orchestration: run the screener for one
(ticker, expiration) pair, keep the record only when the rounded Current
Price field lies in the inclusive price range, and merge the fundamentals
into it. -/
def screenAndFilter (ticker : String) (td : TickerData) (exp : ℕ)
    (daysOf : ℕ → ℤ) (m minP maxP : ℚ) : Option Merged :=
  match get_put_option_data ticker td.priceRes td.options exp (td.chain exp)
      m (daysOf exp) with
  | some r =>
    if minP ≤ r.currentPrice ∧ r.currentPrice ≤ maxP then
      some (r, get_fundamentals td.fund)
    else none
  | none => none

/-- Descending order on the Bid column used by the ALL-mode sort. -/
def bidDesc (a b : Merged) : Prop := b.1.bid ≤ a.1.bid

instance : DecidableRel bidDesc :=
  fun a b => inferInstanceAs (Decidable (b.1.bid ≤ a.1.bid))

instance : IsTotal Merged bidDesc := ⟨fun a b => le_total b.1.bid a.1.bid⟩

instance : IsTrans Merged bidDesc := ⟨fun _ _ _ hab hbc => le_trans hbc hab⟩

/-- Rank of a numpy float in a pandas descending sort: infinity first,
finite values next, negative infinity after them, NaN always last. -/
def NumF.rank : NumF → ℕ
  | .nan => 0
  | .negInf => 1
  | .fin _ => 2
  | .posInf => 3

/-- The finite payload of a numpy float, 0 for the non-finite values. -/
def NumF.finVal : NumF → ℚ
  | .fin q => q
  | _ => 0

/-- Precedence in a pandas descending sort of a float column: x comes no
later than y when x has strictly higher rank, or equal rank and a finite
value at least that of y. -/
def NumF.descLE (x y : NumF) : Prop :=
  y.rank < x.rank ∨ (y.rank = x.rank ∧ y.finVal ≤ x.finVal)

instance : DecidableRel NumF.descLE :=
  fun x y => inferInstanceAs
    (Decidable (y.rank < x.rank ∨ (y.rank = x.rank ∧ y.finVal ≤ x.finVal)))

/-- Descending order on the Abs ROI column used by the single-ticker sort. -/
def absROIDesc (a b : Merged) : Prop := NumF.descLE a.1.absROI b.1.absROI

instance : DecidableRel absROIDesc :=
  fun a b => inferInstanceAs (Decidable (NumF.descLE a.1.absROI b.1.absROI))

instance : IsTotal NumF NumF.descLE := by
  constructor
  intro x y
  unfold NumF.descLE
  rcases lt_trichotomy x.rank y.rank with h | h | h
  · exact Or.inr (Or.inl h)
  · rcases le_total y.finVal x.finVal with hf | hf
    · exact Or.inl (Or.inr ⟨h.symm, hf⟩)
    · exact Or.inr (Or.inr ⟨h, hf⟩)
  · exact Or.inl (Or.inl h)

instance : IsTrans NumF NumF.descLE := by
  constructor
  intro x y z hxy hyz
  unfold NumF.descLE at *
  rcases hxy with h1 | ⟨h1, h1f⟩ <;> rcases hyz with h2 | ⟨h2, h2f⟩
  · exact Or.inl (lt_trans h2 h1)
  · exact Or.inl (lt_of_eq_of_lt h2 h1)
  · exact Or.inl (lt_of_lt_of_le h2 (le_of_eq h1))
  · exact Or.inr ⟨h2.trans h1, h2f.trans h1f⟩

instance : IsTotal Merged absROIDesc :=
  ⟨fun a b => IsTotal.total (r := NumF.descLE) a.1.absROI b.1.absROI⟩

instance : IsTrans Merged absROIDesc :=
  ⟨fun _ _ _ hab hbc => IsTrans.trans (r := NumF.descLE) _ _ _ hab hbc⟩

/-- ALL mode: run the screener once per ticker at the fixed chosen
expiration, filter by the price range, merge fundamentals, and sort the
DataFrame descending by its Bid column (pandas sort_values is stable). -/
def runAllMode (tickers : List String) (data : String → TickerData)
    (expiration : ℕ) (daysOf : ℕ → ℤ) (m minP maxP : ℚ) : List Merged :=
  List.insertionSort bidDesc
    (tickers.filterMap
      (fun t => screenAndFilter t (data t) expiration daysOf m minP maxP))

/-- Single-ticker mode: run the screener for the next 4 weekly Fridays,
filter by the price range, merge fundamentals, and sort the DataFrame
descending by its Abs ROI column. -/
def runSingleMode (ticker : String) (td : TickerData) (today : ℕ)
    (daysOf : ℕ → ℤ) (m minP maxP : ℚ) : List Merged :=
  List.insertionSort absROIDesc
    ((get_weekly_fridays today 4).filterMap
      (fun e => screenAndFilter ticker td e daysOf m minP maxP))

/-- What the GUI does with the collected results: a table when the list is
non-empty, a warning otherwise (never an error). -/
inductive UIOutcome where
  | table (rows : List Merged)
  | warning
deriving DecidableEq

/-- The if results: ... else: st.warning(...) step of both modes. -/
def displayResults (rows : List Merged) : UIOutcome :=
  if rows = [] then .warning else .table rows

/-! Theorems.  Claim C1: the expiration enumerator. -/

/-- Each offset produced inside get_weekly_fridays is the fixed
next-Friday offset plus 7 i. -/
lemma fridays_offset_eq (today i : ℕ) :
    ((4 - ((today % 7 : ℕ) : ℤ) + 7 * (i : ℤ)) % 7 + 7 * (i : ℤ)).toNat
      = ((4 - ((today % 7 : ℕ) : ℤ)) % 7).toNat + 7 * i := by
  omega

/-- Claim C1, counterexample to the claim as stated: on a Friday (day 4 is
a Friday) the first enumerated date is today itself, not strictly after
today. -/
theorem c1_counterexample :
    get_weekly_fridays 4 1 = [4] ∧ (4 : ℕ) % 7 = 4 ∧
      ¬ (∀ d ∈ get_weekly_fridays 4 1, 4 < d) := by
  refine ⟨by decide, by decide, ?_⟩
  intro h
  exact absurd (h 4 (by decide)) (by decide)

/-- Claim C1 as amended: for every count N ≥ 1 the enumerator returns
exactly N dates, each a Friday, strictly increasing, each on or after
today; the first is strictly after today when today is not a Friday, and
is today itself when today is a Friday.  For non-positive N the result is
empty. -/
theorem c1_enumerator_amended (today : ℕ) (n : ℤ) :
    (n ≤ 0 → get_weekly_fridays today n = []) ∧
    ((get_weekly_fridays today n).length : ℤ) = max n 0 ∧
    (∀ d ∈ get_weekly_fridays today n, d % 7 = 4) ∧
    (get_weekly_fridays today n).Pairwise (· < ·) ∧
    (∀ d ∈ get_weekly_fridays today n, today ≤ d) ∧
    (today % 7 = 4 → 1 ≤ n →
      (get_weekly_fridays today n).head? = some today) ∧
    (today % 7 ≠ 4 → ∀ d ∈ (get_weekly_fridays today n).head?, today < d) := by
  refine ⟨?_, ?_, ?_, ?_, ?_, ?_, ?_⟩
  · intro hn
    have : n.toNat = 0 := by omega
    simp [get_weekly_fridays, this]
  · rw [get_weekly_fridays, List.length_map, List.length_range]
    omega
  · intro d hd
    simp [get_weekly_fridays] at hd
    obtain ⟨i, hi, rfl⟩ := hd
    omega
  · rw [get_weekly_fridays]
    refine List.pairwise_map.mpr ?_
    refine (List.pairwise_lt_range _).imp ?_
    intro a b hab
    omega
  · intro d hd
    simp [get_weekly_fridays] at hd
    obtain ⟨i, hi, rfl⟩ := hd
    omega
  · intro h4 hn
    obtain ⟨k, hk⟩ : ∃ k, n.toNat = k + 1 := ⟨n.toNat - 1, by omega⟩
    simp [get_weekly_fridays, hk, List.range_succ_eq_map]
    omega
  · intro h4 d hd
    simp at hd
    rcases hn : n.toNat with _ | k
    · simp [get_weekly_fridays, hn] at hd
    · rw [get_weekly_fridays, hn, List.range_succ_eq_map] at hd
      simp at hd
      omega

/-! Claim C3: the screener filter and selection rule. -/

/-- The rows of the chain surviving the moneyness filter of the screener. -/
def qualifying (price m : ℚ) (chain : List PutRow) : List PutRow :=
  chain.filter fun r => r.strike ≤ price * (1 - m / 100)

/-- selectBest returns none exactly on the empty list. -/
lemma selectBest_eq_none_iff (l : List PutRow) : selectBest l = none ↔ l = [] := by
  cases l with
  | nil => simp [selectBest]
  | cons x xs =>
    simp only [selectBest]
    cases selectBest xs with
    | none => simp
    | some y => by_cases h : x.bid < y.bid <;> simp [h]

/-- Characterisation of selectBest: it returns the first row of maximal
bid, pandas idxmax semantics. -/
lemma selectBest_spec (l : List PutRow) (b : PutRow) (h : selectBest l = some b) :
    ∃ i, ∃ hi : i < l.length,
      l.get ⟨i, hi⟩ = b ∧ (∀ x ∈ l, x.bid ≤ b.bid) ∧
      ∀ j, ∀ hj : j < l.length, j < i → (l.get ⟨j, hj⟩).bid < b.bid := by
  induction l generalizing b with
  | nil => simp [selectBest] at h
  | cons x xs ih =>
    simp only [selectBest] at h
    cases hxs : selectBest xs with
    | none =>
      rw [hxs] at h
      have hnil : xs = [] := (selectBest_eq_none_iff xs).mp hxs
      subst hnil
      obtain rfl : x = b := by simpa using h
      exact ⟨0, by simp, rfl, by simp, fun j hj hj0 => absurd hj0 (by omega)⟩
    | some y =>
      simp only [hxs] at h
      by_cases hb : x.bid < y.bid
      · rw [if_pos hb] at h
        have hyb : y = b := by simpa using h
        rw [hyb] at hxs hb
        obtain ⟨i, hi, hget, hmax, hfirst⟩ := ih b hxs
        refine ⟨i + 1, by simpa using Nat.succ_lt_succ hi, by simpa using hget, ?_, ?_⟩
        · intro z hz
          rcases List.mem_cons.mp hz with rfl | hz
          · exact le_of_lt hb
          · exact hmax z hz
        · intro j hj hji
          cases j with
          | zero => simpa using hb
          | succ k =>
            have hk : k < xs.length := by simpa using hj
            have := hfirst k hk (by omega)
            simpa using this
      · rw [if_neg hb] at h
        obtain rfl : x = b := by simpa using h
        obtain ⟨i, hi, hget, hmax, hfirst⟩ := ih y hxs
        refine ⟨0, by simp, rfl, ?_, fun j hj hj0 => absurd hj0 (by omega)⟩
        intro z hz
        rcases List.mem_cons.mp hz with rfl | hz
        · exact le_refl _
        · exact le_trans (hmax z hz) (not_lt.mp hb)

/-- On the happy fetch path the screener is the selection composed with
the record builder. -/
lemma get_put_option_data_eq (ticker : String) (price : ℚ) (options : List ℕ)
    (target : ℕ) (chain : List PutRow) (m : ℚ) (days : ℤ)
    (hopt : target ∈ options) :
    get_put_option_data ticker (some price) options target (some chain) m days
      = (selectBest (qualifying price m chain)).map
          (mkScreenRecord ticker price target days) := by
  simp only [get_put_option_data, if_pos hopt, qualifying]
  cases selectBest (chain.filter fun r => r.strike ≤ price * (1 - m / 100)) <;> rfl

/-- Claim C3: with the target expiration listed, the screener produces a
record iff some chain row has strike at most price times (1 - m / 100);
the record is built from a qualifying row of maximal bid, and every
earlier qualifying row has strictly smaller bid (first-of-the-maxima tie
break, pandas idxmax). -/
theorem c3_filter_and_selection (ticker : String) (price : ℚ)
    (options : List ℕ) (target : ℕ) (chain : List PutRow) (m : ℚ) (days : ℤ)
    (hopt : target ∈ options) :
    ((∃ rec, get_put_option_data ticker (some price) options target
        (some chain) m days = some rec)
      ↔ ∃ r ∈ chain, r.strike ≤ price * (1 - m / 100)) ∧
    (∀ rec, get_put_option_data ticker (some price) options target
        (some chain) m days = some rec →
      ∃ i, ∃ hi : i < (qualifying price m chain).length,
        rec = mkScreenRecord ticker price target days
            ((qualifying price m chain).get ⟨i, hi⟩) ∧
        (∀ x ∈ qualifying price m chain,
          x.bid ≤ ((qualifying price m chain).get ⟨i, hi⟩).bid) ∧
        ∀ j, ∀ hj : j < (qualifying price m chain).length, j < i →
          ((qualifying price m chain).get ⟨j, hj⟩).bid
            < ((qualifying price m chain).get ⟨i, hi⟩).bid) := by
  rw [get_put_option_data_eq ticker price options target chain m days hopt]
  constructor
  · cases hsel : selectBest (qualifying price m chain) with
    | none =>
      have hnil := (selectBest_eq_none_iff _).mp hsel
      constructor
      · rintro ⟨rec, hrec⟩
        simp at hrec
      · rintro ⟨r, hr, hs⟩
        have hmem : r ∈ qualifying price m chain :=
          List.mem_filter.mpr ⟨hr, by simpa using hs⟩
        rw [hnil] at hmem
        simp at hmem
    | some b =>
      constructor
      · intro _
        obtain ⟨i, hi, hget, _, _⟩ := selectBest_spec _ b hsel
        have hmem : b ∈ qualifying price m chain := hget ▸ List.get_mem _ i hi
        have hmf := List.mem_filter.mp hmem
        exact ⟨b, hmf.1, by simpa using hmf.2⟩
      · intro _
        exact ⟨mkScreenRecord ticker price target days b, rfl⟩
  · intro rec hrec
    cases hsel : selectBest (qualifying price m chain) with
    | none => rw [hsel] at hrec; simp at hrec
    | some b =>
      rw [hsel] at hrec
      simp only [Option.map_some', Option.some_inj] at hrec
      obtain ⟨i, hi, hget, hmax, hfirst⟩ := selectBest_spec _ b hsel
      exact ⟨i, hi, by rw [hget, ← hrec], by rw [hget]; exact hmax,
        fun j hj hji => by rw [hget]; exact hfirst j hj hji⟩

/-- Claim C3 witness at the worked example of the spec: price 200,
moneyness 5, a chain with strikes 185 and 195. -/
theorem c3_filter_and_selection_witness :
    (∃ rec, get_put_option_data "AAPL" (some 200) [30] 30
        (some [⟨185, 2, 11/5, 10, 3/10⟩, ⟨195, 3, 16/5, 5, 3/10⟩]) 5 30
          = some rec)
      ↔ ∃ r ∈ [(⟨185, 2, 11/5, 10, 3/10⟩ : PutRow), ⟨195, 3, 16/5, 5, 3/10⟩],
          r.strike ≤ 200 * (1 - 5 / 100) :=
  (c3_filter_and_selection "AAPL" 200 [30] 30
    [⟨185, 2, 11/5, 10, 3/10⟩, ⟨195, 3, 16/5, 5, 3/10⟩] 5 30 (by decide)).1

/-! Claim C7: premium, cash required and absolute ROI of the selected row. -/

/-- Claim C7: for the selected row, Premium is round(bid x 100, 2), Cash
Required is round(strike x 100, 2), and (for a nonzero strike, where the
float quotient is finite) Abs ROI is round(bid / strike x 100, 2). -/
theorem c7_derived_fields (ticker : String) (price : ℚ) (options : List ℕ)
    (target : ℕ) (chain : List PutRow) (m : ℚ) (days : ℤ)
    (hopt : target ∈ options) (rec : ScreenRecord)
    (hrec : get_put_option_data ticker (some price) options target
      (some chain) m days = some rec) :
    ∃ best, selectBest (qualifying price m chain) = some best ∧
      rec.premium = roundTo2 (best.bid * 100) ∧
      rec.cashRequired = roundTo2 (best.strike * 100) ∧
      (best.strike ≠ 0 →
        rec.absROI = .fin (roundTo2 (best.bid / best.strike * 100))) := by
  rw [get_put_option_data_eq ticker price options target chain m days hopt]
    at hrec
  cases hsel : selectBest (qualifying price m chain) with
  | none => rw [hsel] at hrec; simp at hrec
  | some b =>
    rw [hsel] at hrec
    simp only [Option.map_some', Option.some_inj] at hrec
    subst hrec
    refine ⟨b, rfl, rfl, rfl, ?_⟩
    intro hs
    simp [mkScreenRecord, ratioTimes100, NumF.ofDiv, NumF.mulPos,
      NumF.round2, hs]

/-- Claim C7 witness at the worked example of the spec: the selected row
is the strike-185 contract, Premium 200.00, Cash Required 18500.00, Abs
ROI 1.08. -/
theorem c7_derived_fields_witness :
    ∃ best, selectBest (qualifying 200 5
        [⟨185, 2, 11/5, 10, 3/10⟩, ⟨195, 3, 16/5, 5, 3/10⟩]) = some best ∧
      (200 : ℚ) = roundTo2 (best.bid * 100) ∧
      (18500 : ℚ) = roundTo2 (best.strike * 100) ∧
      (best.strike ≠ 0 →
        NumF.fin (27/25) = .fin (roundTo2 (best.bid / best.strike * 100))) :=
  c7_derived_fields "AAPL" 200 [30] 30
    [⟨185, 2, 11/5, 10, 3/10⟩, ⟨195, 3, 16/5, 5, 3/10⟩] 5 30 (by decide)
    ⟨"AAPL", 200, 185, 2, 11/5, 10, 200, 18500, .fin (27/25), .fin (263/20),
      30, 30⟩
    (by norm_num [get_put_option_data, selectBest, mkScreenRecord,
      ratioTimes100, NumF.ofDiv, NumF.mulPos, NumF.divInt, NumF.round2,
      roundTo2, round_eq, Rat.floor_def, List.filter])

/-! Claim C2: the annualized ROI formula. -/

/-- Claim C2, counterexample to the claim as stated: with bid 1, strike 3,
one day to expiration, the code computes round(bid / strike x 100 x 365 /
days, 2) = 12166.67 from the unrounded ratio, while the claim prescribes
round(AbsROI x 365 / days, 2) = round(33.33 x 365, 2) = 12165.45 from the
already-rounded Abs ROI field. -/
theorem c2_counterexample :
    (get_put_option_data "TST" (some 100) [7] 7 (some [⟨3, 1, 1, 0, 0⟩]) 5
        1).map ScreenRecord.absROI = some (.fin (3333/100)) ∧
    (get_put_option_data "TST" (some 100) [7] 7 (some [⟨3, 1, 1, 0, 0⟩]) 5
        1).map ScreenRecord.annualizedROI = some (.fin (1216667/100)) ∧
    roundTo2 ((3333 : ℚ)/100 * 365 / 1) = 243309/20 ∧
    NumF.fin ((1216667 : ℚ)/100) ≠ .fin (243309/20) := by
  refine ⟨?_, ?_, ?_, ?_⟩ <;>
    norm_num [get_put_option_data, selectBest, mkScreenRecord, ratioTimes100,
      NumF.ofDiv, NumF.mulPos, NumF.divInt, NumF.round2, roundTo2, round_eq,
      Rat.floor_def, List.filter]

/-- Claim C2 as amended: the Annualized ROI field of the selected row is
round(bid / strike x 100 x 365 / days_to_expiration, 2) computed from the
unrounded ratio bid / strike, not from the rounded Abs ROI field (stated
for a nonzero number of days and a nonzero strike, where the float
quotients are finite). -/
theorem c2_annualized_amended (ticker : String) (price : ℚ)
    (options : List ℕ) (target : ℕ) (chain : List PutRow) (m : ℚ) (days : ℤ)
    (hopt : target ∈ options) (rec : ScreenRecord)
    (hrec : get_put_option_data ticker (some price) options target
      (some chain) m days = some rec) (hd : days ≠ 0) :
    ∃ best, selectBest (qualifying price m chain) = some best ∧
      (best.strike ≠ 0 →
        rec.annualizedROI
          = .fin (roundTo2 (best.bid / best.strike * 100 * 365 / days))) := by
  rw [get_put_option_data_eq ticker price options target chain m days hopt]
    at hrec
  cases hsel : selectBest (qualifying price m chain) with
  | none => rw [hsel] at hrec; simp at hrec
  | some b =>
    rw [hsel] at hrec
    simp only [Option.map_some', Option.some_inj] at hrec
    subst hrec
    refine ⟨b, rfl, ?_⟩
    intro hs
    simp [mkScreenRecord, ratioTimes100, NumF.ofDiv, NumF.mulPos,
      NumF.divInt, NumF.round2, hs, hd]

/-- Claim C2 witness at a concrete chain: bid 2, strike 185, 30 days. -/
theorem c2_annualized_witness :
    ∃ best, selectBest (qualifying 200 5
        [⟨185, 2, 11/5, 10, 3/10⟩, ⟨195, 3, 16/5, 5, 3/10⟩]) = some best ∧
      (best.strike ≠ 0 →
        NumF.fin (263/20)
          = .fin (roundTo2 (best.bid / best.strike * 100 * 365 / (30 : ℤ)))) :=
  c2_annualized_amended "AAPL" 200 [30] 30
    [⟨185, 2, 11/5, 10, 3/10⟩, ⟨195, 3, 16/5, 5, 3/10⟩] 5 30 (by decide)
    ⟨"AAPL", 200, 185, 2, 11/5, 10, 200, 18500, .fin (27/25), .fin (263/20),
      30, 30⟩
    (by norm_num [get_put_option_data, selectBest, mkScreenRecord,
      ratioTimes100, NumF.ofDiv, NumF.mulPos, NumF.divInt, NumF.round2,
      roundTo2, round_eq, Rat.floor_def, List.filter])
    (by norm_num)

/-! Claim C9: behaviour when days_to_expiration is zero or negative. -/

/-- Rounding to two decimals preserves nonpositivity. -/
lemma roundTo2_nonpos (x : ℚ) (hx : x ≤ 0) : roundTo2 x ≤ 0 := by
  rw [roundTo2, round_eq]
  have h1 : (⌊x * 100 + 1/2⌋ : ℤ) ≤ ⌊(1/2 : ℚ)⌋ :=
    Int.floor_le_floor (by linarith)
  have h2 : (⌊(1/2 : ℚ)⌋ : ℤ) = 0 := by norm_num
  have h3 : (⌊x * 100 + 1/2⌋ : ℤ) ≤ 0 := by omega
  have h4 : ((⌊x * 100 + 1/2⌋ : ℤ) : ℚ) ≤ 0 := by exact_mod_cast h3
  have h100 : (0 : ℚ) < 100 := by norm_num
  exact div_nonpos_iff.mpr (Or.inr ⟨h4, le_of_lt h100⟩)

/-- Claim C9, counterexample to the claim as stated: with a qualifying put
of bid 0 and days = -1 the screener does return a record, but its
Annualized ROI field is the finite value 0.00, neither non-finite nor
negative. -/
theorem c9_counterexample :
    (get_put_option_data "TST" (some 100) [7] 7 (some [⟨10, 0, 0, 0, 0⟩]) 5
        (-1)).map ScreenRecord.annualizedROI = some (.fin 0) ∧
    NumF.IsFinite (.fin (0 : ℚ)) ∧ ¬ ((0 : ℚ) < 0) := by
  refine ⟨?_, trivial, by norm_num⟩
  norm_num [get_put_option_data, selectBest, mkScreenRecord, ratioTimes100,
    NumF.ofDiv, NumF.mulPos, NumF.divInt, NumF.round2, roundTo2, round_eq,
    Rat.floor_def, List.filter]

/-- Claim C9 as amended: when the expiration is listed, every chain row
has positive strike and nonnegative bid (as market data does), some row
qualifies, and days_to_expiration is nonpositive, the screener still
returns a record rather than failing; its Annualized ROI field is
non-finite (infinity or NaN) when days = 0, and nonpositive (the rounding
of a negative quotient, or negative infinity) when days < 0. -/
theorem c9_expired_annualized_amended (ticker : String) (price : ℚ)
    (options : List ℕ) (target : ℕ) (chain : List PutRow) (m : ℚ) (days : ℤ)
    (hopt : target ∈ options)
    (hrows : ∀ r ∈ chain, 0 < r.strike ∧ 0 ≤ r.bid)
    (hqual : ∃ r ∈ chain, r.strike ≤ price * (1 - m / 100))
    (hdays : days ≤ 0) :
    ∃ rec, get_put_option_data ticker (some price) options target
        (some chain) m days = some rec ∧
      (days = 0 → ¬ rec.annualizedROI.IsFinite) ∧
      (days < 0 → rec.annualizedROI.Nonpos) := by
  obtain ⟨rec, hrec⟩ :=
    (c3_filter_and_selection ticker price options target chain m days
      hopt).1.mpr hqual
  refine ⟨rec, hrec, ?_⟩
  rw [get_put_option_data_eq ticker price options target chain m days hopt]
    at hrec
  cases hsel : selectBest (qualifying price m chain) with
  | none => rw [hsel] at hrec; simp at hrec
  | some b =>
    rw [hsel] at hrec
    simp only [Option.map_some', Option.some_inj] at hrec
    subst hrec
    have hbq : b ∈ qualifying price m chain := by
      obtain ⟨i, hi, hget, _, _⟩ := selectBest_spec _ b hsel
      exact hget ▸ List.get_mem _ i hi
    have hbchain : b ∈ chain := (List.mem_filter.mp hbq).1
    obtain ⟨hstrike, hbid⟩ := hrows b hbchain
    have hq : (0 : ℚ) ≤ b.bid / b.strike * 100 * 365 := by positivity
    constructor
    · intro h0
      subst h0
      simp only [mkScreenRecord, ratioTimes100, NumF.ofDiv, NumF.mulPos,
        NumF.divInt, if_neg (ne_of_gt hstrike)]
      rcases lt_or_eq_of_le hq with hpos | hzero
      · simp [NumF.round2, NumF.IsFinite, hpos]
      · simp [NumF.round2, NumF.IsFinite, ← hzero]
    · intro hneg
      simp only [mkScreenRecord, ratioTimes100, NumF.ofDiv, NumF.mulPos,
        NumF.divInt, if_neg (ne_of_gt hstrike), if_neg (ne_of_lt hneg)]
      have hdiv : b.bid / b.strike * 100 * 365 / (days : ℚ) ≤ 0 := by
        refine div_nonpos_iff.mpr (Or.inl ⟨hq, ?_⟩)
        exact_mod_cast le_of_lt hneg
      simpa [NumF.round2, NumF.Nonpos] using roundTo2_nonpos _ hdiv

/-- Claim C9 witness: strike 10, bid 1, days = -1 gives a returned record
with nonpositive annualized ROI. -/
theorem c9_expired_annualized_witness :
    ∃ rec, get_put_option_data "TST" (some 100) [7] 7
        (some [⟨10, 1, 1, 0, 0⟩]) 5 (-1) = some rec ∧
      ((-1 : ℤ) = 0 → ¬ rec.annualizedROI.IsFinite) ∧
      ((-1 : ℤ) < 0 → rec.annualizedROI.Nonpos) :=
  c9_expired_annualized_amended "TST" 100 [7] 7 [⟨10, 1, 1, 0, 0⟩] 5 (-1)
    (by decide)
    (by intro r hr; simp at hr; subst hr; constructor <;> norm_num)
    (⟨⟨10, 1, 1, 0, 0⟩, by simp, by norm_num⟩)
    (by norm_num)

/-! Claims C4, C5, C10: the fundamentals enricher. -/

/-- A raising derivation (truthy price target, missing current price)
lands in the except branch and yields the default record. -/
lemma get_fundamentals_raise_eq (f : FundInput)
    (ht : truthyQ f.info.targetMeanPrice = true)
    (hc : f.info.currentPrice = none) :
    get_fundamentals (some f) = defaultFund := by
  simp [get_fundamentals, ht, hc]

instance (o : Option ℚ) (p : ℚ → Prop) [DecidablePred p] :
    Decidable (∃ x, o = some x ∧ p x) :=
  match o with
  | none => isFalse (by simp)
  | some a => decidable_of_iff (p a) (by simp)

/-- Claim C5: on every input on which a fetch raises (none) or the
derivation raises (truthy price target with missing current price),
get_fundamentals returns exactly the documented default record and never
propagates the exception (it is a total function into records). -/
theorem c5_exception_default (inp : Option FundInput)
    (h : inp = none ∨ ∃ f, inp = some f ∧
      truthyQ f.info.targetMeanPrice = true ∧ f.info.currentPrice = none) :
    get_fundamentals inp = defaultFund := by
  rcases h with rfl | ⟨f, rfl, ht, hc⟩
  · rfl
  · exact get_fundamentals_raise_eq f ht hc

/-- Claim C5 witness: a concrete raising input. -/
theorem c5_exception_default_witness :
    get_fundamentals
        (some ⟨⟨some "hold", some 7, none, none⟩, none, [], []⟩)
      = defaultFund :=
  c5_exception_default _
    (Or.inr ⟨⟨⟨some "hold", some 7, none, none⟩, none, [], []⟩, rfl,
      by norm_num [truthyQ], rfl⟩)

/-- Claim C10: when the info blob has a truthy targetMeanPrice and no
currentPrice, the comparison raises and the whole record collapses to the
default one with score 0, even though the recommendation is buy and the
dividend yield is nonzero. -/
theorem c10_missing_current_price (f : FundInput)
    (ht : truthyQ f.info.targetMeanPrice = true)
    (hc : f.info.currentPrice = none)
    (hbuy : f.info.recommendationKey = some "buy")
    (hdiv : ∃ d, f.info.dividendYield = some d ∧ d ≠ 0) :
    get_fundamentals (some f) = defaultFund ∧
      (get_fundamentals (some f)).overallScore = 0 := by
  have h := get_fundamentals_raise_eq f ht hc
  exact ⟨h, by rw [h]; rfl⟩

/-- Claim C10 witness: buy recommendation, dividend yield 2 percent,
price target 5, missing current price. -/
theorem c10_missing_current_price_witness :
    get_fundamentals
        (some ⟨⟨some "buy", some 5, none, some (1/50)⟩, none, [], []⟩)
      = defaultFund ∧
    (get_fundamentals
        (some ⟨⟨some "buy", some 5, none, some (1/50)⟩, none, [], []⟩)).overallScore
      = 0 :=
  c10_missing_current_price ⟨⟨some "buy", some 5, none, some (1/50)⟩, none, [], []⟩
    (by norm_num [truthyQ]) rfl rfl ⟨1/50, rfl, by norm_num⟩

/-- Claim C4, counterexample to the claim as stated: an input whose
recommendation is buy and whose dividend yield is nonzero (two satisfied
sub-conditions) but whose returned score is 0, because the truthy price
target together with the missing current price sends the whole derivation
into the except branch. -/
theorem c4_counterexample :
    (get_fundamentals
        (some ⟨⟨some "buy", some 5, none, some (1/50)⟩, none, [], []⟩)).overallScore
      = 0 ∧
    (⟨⟨some "buy", some 5, none, some (1/50)⟩, none, [], []⟩
        : FundInput).info.recommendationKey = some "buy" ∧
    (⟨⟨some "buy", some 5, none, some (1/50)⟩, none, [], []⟩
        : FundInput).info.dividendYield = some (1/50) ∧
    ((1 : ℚ)/50 ≠ 0) ∧ (0 : ℕ) ≠ 2 := by
  refine ⟨?_, rfl, rfl, by norm_num, by norm_num⟩
  have h := get_fundamentals_raise_eq
    ⟨⟨some "buy", some 5, none, some (1/50)⟩, none, [], []⟩
    (by norm_num [truthyQ]) rfl
  rw [h]
  rfl

/-- Claim C4 as amended: on every input on which the derivation does not
raise, the returned score is the count of the three satisfied
sub-conditions (recommendation buy; price target present, nonzero and
strictly above the current price; dividend yield present and nonzero) and
lies in [0, 3]; on raising inputs the returned score is 0. -/
theorem c4_score_amended (f : FundInput)
    (h : ¬ (truthyQ f.info.targetMeanPrice = true ∧
      f.info.currentPrice = none)) :
    (get_fundamentals (some f)).overallScore
      = (if f.info.recommendationKey = some "buy" then 1 else 0)
      + (if ∃ t, f.info.targetMeanPrice = some t ∧ t ≠ 0 ∧
            ∃ c, f.info.currentPrice = some c ∧ c < t then 1 else 0)
      + (if ∃ d, f.info.dividendYield = some d ∧ d ≠ 0 then 1 else 0)
    ∧ (get_fundamentals (some f)).overallScore ≤ 3 := by
  have hguard : (truthyQ f.info.targetMeanPrice
      && f.info.currentPrice.isNone) = false := by
    cases hcp : f.info.currentPrice with
    | none =>
      cases ht : truthyQ f.info.targetMeanPrice with
      | false => simp
      | true => exact absurd ⟨ht, hcp⟩ h
    | some c => simp
  have hscore : (get_fundamentals (some f)).overallScore = scoreOf f.info := by
    simp only [get_fundamentals, hguard, Bool.false_eq_true, if_false]
  rw [hscore]
  constructor
  · rw [scoreOf]
    congr 1
    · congr 1
      rcases htp : f.info.targetMeanPrice with _ | t <;>
        rcases hcp : f.info.currentPrice with _ | c <;>
          simp [cond2, htp, hcp, and_assoc]
    · rcases hdy : f.info.dividendYield with _ | d <;> simp [truthyQ, hdy]
  · rw [scoreOf]
    split_ifs <;> omega

/-- Claim C4 witness: all three sub-conditions hold and the score is 3. -/
theorem c4_score_witness :
    (get_fundamentals
        (some ⟨⟨some "buy", some 10, some 5, some (1/50)⟩, none, [], []⟩)).overallScore
      = (if (⟨⟨some "buy", some 10, some 5, some (1/50)⟩, none, [], []⟩
            : FundInput).info.recommendationKey = some "buy" then 1 else 0)
      + (if ∃ t, (⟨⟨some "buy", some 10, some 5, some (1/50)⟩, none, [], []⟩
            : FundInput).info.targetMeanPrice = some t ∧ t ≠ 0 ∧
            ∃ c, (⟨⟨some "buy", some 10, some 5, some (1/50)⟩, none, [], []⟩
              : FundInput).info.currentPrice = some c ∧ c < t then 1 else 0)
      + (if ∃ d, (⟨⟨some "buy", some 10, some 5, some (1/50)⟩, none, [], []⟩
            : FundInput).info.dividendYield = some d ∧ d ≠ 0 then 1 else 0)
    ∧ (get_fundamentals
        (some ⟨⟨some "buy", some 10, some 5, some (1/50)⟩, none, [], []⟩)).overallScore
      ≤ 3 :=
  c4_score_amended ⟨⟨some "buy", some 10, some 5, some (1/50)⟩, none, [], []⟩
    (by simp)

/-! Claims C6 and C8: orchestration. -/

/-- Characterisation of one orchestration loop body: it yields a merged
record exactly when the screener returns one whose rounded Current Price
field lies in the inclusive price range. -/
lemma screenAndFilter_some_iff (ticker : String) (td : TickerData) (exp : ℕ)
    (daysOf : ℕ → ℤ) (m minP maxP : ℚ) (r : Merged) :
    screenAndFilter ticker td exp daysOf m minP maxP = some r ↔
      ∃ s, get_put_option_data ticker td.priceRes td.options exp
          (td.chain exp) m (daysOf exp) = some s ∧
        minP ≤ s.currentPrice ∧ s.currentPrice ≤ maxP ∧
        r = (s, get_fundamentals td.fund) := by
  unfold screenAndFilter
  cases h : get_put_option_data ticker td.priceRes td.options exp
      (td.chain exp) m (daysOf exp) with
  | none => simp
  | some s =>
    by_cases hp : minP ≤ s.currentPrice ∧ s.currentPrice ≤ maxP
    · simp only [if_pos hp]
      constructor
      · intro hr
        exact ⟨s, rfl, hp.1, hp.2, (Option.some_inj.mp hr).symm⟩
      · rintro ⟨s2, hs2, _, _, rfl⟩
        rw [Option.some_inj.mp hs2]
    · simp only [if_neg hp]
      constructor
      · intro hr; exact absurd hr (by simp)
      · rintro ⟨s2, hs2, h1, h2, rfl⟩
        exact absurd ⟨(Option.some_inj.mp hs2) ▸ h1,
          (Option.some_inj.mp hs2) ▸ h2⟩ hp

/-- Claim C6: a raising price lookup or chain fetch yields the no-data
result none for that (ticker, expiration) pair, and every record the
orchestration collects comes from a pair whose screener returned a full
record (merged with the fundamentals record): no partial record exists. -/
theorem c6_exception_yields_no_data (ticker : String) (options : List ℕ)
    (target : ℕ) (chainRes : Option (List PutRow)) (m : ℚ) (days : ℤ)
    (price : ℚ) (tickers : List String) (data : String → TickerData)
    (expiration : ℕ) (daysOf : ℕ → ℤ) (minP maxP : ℚ) :
    get_put_option_data ticker none options target chainRes m days = none ∧
    get_put_option_data ticker (some price) options target none m days
      = none ∧
    (∀ r ∈ runAllMode tickers data expiration daysOf m minP maxP,
      ∃ t ∈ tickers, ∃ s, get_put_option_data t (data t).priceRes
          (data t).options expiration ((data t).chain expiration) m
          (daysOf expiration) = some s ∧
        r = (s, get_fundamentals (data t).fund)) := by
  refine ⟨rfl, ?_, ?_⟩
  · simp only [get_put_option_data]
    split <;> rfl
  · intro r hr
    rw [runAllMode, List.mem_insertionSort, List.mem_filterMap] at hr
    obtain ⟨t, ht, hsf⟩ := hr
    obtain ⟨s, hs, _, _, hr⟩ :=
      (screenAndFilter_some_iff t (data t) expiration daysOf m minP maxP
        r).mp hsf
    exact ⟨t, ht, s, hs, hr⟩

/-- Two-ticker ALL-mode scenario whose raw bids 1.001 and 1.004 both round
to the same Bid field 1.00. -/
def allModeTieData : String → TickerData := fun t =>
  { priceRes := some 100
    options := [7]
    chain := fun _ =>
      some [⟨10, if t = "T1" then 1001/1000 else 1004/1000, 1, 0, 0⟩]
    fund := none }

/-- Claim C8, counterexample to the claim as stated: the ALL-mode sort key
is the rounded Bid field, not the raw bid.  With raw bids 1.001 (first
ticker) and 1.004 (second ticker), both Bid fields are 1.00, the stable
sort keeps the original order, and the output is not in descending raw-bid
order. -/
theorem c8_counterexample :
    (runAllMode ["T1", "T2"] allModeTieData 7 (fun _ => 30) 5 50 1000).map
        (fun r => r.1.ticker) = ["T1", "T2"] ∧
    (runAllMode ["T1", "T2"] allModeTieData 7 (fun _ => 30) 5 50 1000).map
        (fun r => r.1.bid) = [1, 1] ∧
    ((1001 : ℚ)/1000) < 1004/1000 := by
  have h1 : screenAndFilter "T1" (allModeTieData "T1") 7 (fun _ => 30) 5 50
      1000 = some (⟨"T1", 100, 10, 1, 1, 0, 1001/10, 1000, .fin (1001/100),
          .fin (12179/100), 7, 0⟩, defaultFund) := by
    simp only [allModeTieData, if_pos rfl]
    norm_num [screenAndFilter, get_put_option_data, selectBest,
      mkScreenRecord, ratioTimes100, NumF.ofDiv, NumF.mulPos, NumF.divInt,
      NumF.round2, roundTo2, round_eq, Rat.floor_def, get_fundamentals,
      defaultFund, List.filter]
  have h2 : screenAndFilter "T2" (allModeTieData "T2") 7 (fun _ => 30) 5 50
      1000 = some (⟨"T2", 100, 10, 1, 1, 0, 502/5, 1000, .fin (251/25),
          .fin (2443/20), 7, 0⟩, defaultFund) := by
    have hne : (("T2" : String) = "T1") = False := by simp
    simp only [allModeTieData, hne, if_false]
    norm_num [screenAndFilter, get_put_option_data, selectBest,
      mkScreenRecord, ratioTimes100, NumF.ofDiv, NumF.mulPos, NumF.divInt,
      NumF.round2, roundTo2, round_eq, Rat.floor_def, get_fundamentals,
      defaultFund, List.filter]
  refine ⟨?_, ?_, by norm_num⟩ <;>
    · rw [runAllMode]
      simp only [List.filterMap_cons, List.filterMap_nil, h1, h2]
      norm_num [List.insertionSort, List.orderedInsert, bidDesc]

/-- Claim C8 as amended: both orchestration modes keep exactly the records
whose Current Price field lies in the inclusive range; single-ticker mode
runs over the 4 enumerated weekly Fridays and sorts descending by the Abs
ROI field, ALL mode runs once per ticker at the fixed expiration and
sorts descending by the rounded Bid field (ties keeping the original
order, so not always descending in raw bid); an empty surviving set is
displayed as a warning, never as an error. -/
theorem c8_orchestration_amended (tickers : List String)
    (data : String → TickerData) (expiration : ℕ) (ticker : String)
    (td : TickerData) (today : ℕ) (daysOf : ℕ → ℤ) (m minP maxP : ℚ) :
    (∀ r ∈ runAllMode tickers data expiration daysOf m minP maxP,
        minP ≤ r.1.currentPrice ∧ r.1.currentPrice ≤ maxP) ∧
    (∀ r ∈ runSingleMode ticker td today daysOf m minP maxP,
        minP ≤ r.1.currentPrice ∧ r.1.currentPrice ≤ maxP) ∧
    (runAllMode tickers data expiration daysOf m minP maxP).Pairwise
      bidDesc ∧
    (runSingleMode ticker td today daysOf m minP maxP).Pairwise
      absROIDesc ∧
    (∀ r, r ∈ runAllMode tickers data expiration daysOf m minP maxP ↔
      ∃ t ∈ tickers,
        screenAndFilter t (data t) expiration daysOf m minP maxP = some r) ∧
    (∀ r, r ∈ runSingleMode ticker td today daysOf m minP maxP ↔
      ∃ e ∈ get_weekly_fridays today 4,
        screenAndFilter ticker td e daysOf m minP maxP = some r) ∧
    (displayResults (runAllMode tickers data expiration daysOf m minP maxP)
        = .warning
      ↔ runAllMode tickers data expiration daysOf m minP maxP = []) ∧
    (displayResults (runSingleMode ticker td today daysOf m minP maxP)
        = .warning
      ↔ runSingleMode ticker td today daysOf m minP maxP = []) := by
  have hwarn : ∀ rows : List Merged,
      displayResults rows = .warning ↔ rows = [] := by
    intro rows
    unfold displayResults
    split_ifs with h
    · simp [h]
    · simp [h]
  have hmemAll : ∀ r,
      r ∈ runAllMode tickers data expiration daysOf m minP maxP ↔
      ∃ t ∈ tickers,
        screenAndFilter t (data t) expiration daysOf m minP maxP = some r := by
    intro r
    rw [runAllMode, List.mem_insertionSort, List.mem_filterMap]
  have hmemSingle : ∀ r,
      r ∈ runSingleMode ticker td today daysOf m minP maxP ↔
      ∃ e ∈ get_weekly_fridays today 4,
        screenAndFilter ticker td e daysOf m minP maxP = some r := by
    intro r
    rw [runSingleMode, List.mem_insertionSort, List.mem_filterMap]
  refine ⟨?_, ?_, ?_, ?_, hmemAll, hmemSingle, hwarn _, hwarn _⟩
  · intro r hr
    obtain ⟨t, _, hsf⟩ := (hmemAll r).mp hr
    obtain ⟨s, _, h1, h2, rfl⟩ := (screenAndFilter_some_iff _ _ _ _ _ _ _ _).mp hsf
    exact ⟨h1, h2⟩
  · intro r hr
    obtain ⟨e, _, hsf⟩ := (hmemSingle r).mp hr
    obtain ⟨s, _, h1, h2, rfl⟩ := (screenAndFilter_some_iff _ _ _ _ _ _ _ _).mp hsf
    exact ⟨h1, h2⟩
  · exact List.sorted_insertionSort bidDesc _
  · exact List.sorted_insertionSort absROIDesc _
